import Mathlib

/-
Verification development for the Sensor Tower daily fetcher
(`fetch_sensortower.py`).  The Python source is shallowly embedded:
numeric JSON fields become an explicit absent/null/number type, Python
floats become exact rationals, the mutable lookup cache becomes explicit
state threading, and the HTTP layer becomes an oracle of responses.

Rational arithmetic is written through the executable wrappers `qAdd`,
`qMul`, `qDiv` (defined by `Rat.divInt`, which the kernel evaluates on
concrete inputs), and the lemmas `qAdd_eq`, `qMul_eq`, `qDiv_eq`
identify them with the field operations of `ℚ` for reasoning.
-/

set_option linter.unusedVariables false

/-- Addition on `ℚ` in an executable normal form. -/
def qAdd (a b : ℚ) : ℚ :=
  Rat.divInt (a.num * (b.den : ℤ) + b.num * (a.den : ℤ)) ((a.den : ℤ) * (b.den : ℤ))

/-- Multiplication on `ℚ` in an executable normal form. -/
def qMul (a b : ℚ) : ℚ :=
  Rat.divInt (a.num * b.num) ((a.den : ℤ) * (b.den : ℤ))

/-- Division on `ℚ` in an executable normal form (division by zero
yields `0`, as in `ℚ`). -/
def qDiv (a b : ℚ) : ℚ :=
  Rat.divInt (a.num * (b.den : ℤ)) ((a.den : ℤ) * b.num)

/-- Python 3 `round` (banker's rounding) on an exact rational: the
nearest integer, with halves resolved to the even neighbour.  The
half-way test `2 * (q.num - ⌊q⌋ * q.den) ⋚ q.den` compares the
fractional part of `q` with `1/2` using only integer arithmetic. -/
def pyRound (q : ℚ) : ℤ :=
  if 2 * (q.num - ⌊q⌋ * (q.den : ℤ)) < (q.den : ℤ) then ⌊q⌋
  else if (q.den : ℤ) < 2 * (q.num - ⌊q⌋ * (q.den : ℤ)) then ⌊q⌋ + 1
  else if ⌊q⌋ % 2 = 0 then ⌊q⌋ else ⌊q⌋ + 1

/-- Python `round(x, 2)` on an exact rational. -/
def roundTo2 (q : ℚ) : ℚ := qDiv ((pyRound (qMul q 100) : ℤ) : ℚ) 100

/-- A numeric JSON field of an API item: the key may be missing
(`absent`), present with a `null` value, or present with a number.
Python reads such a field with `dict.get`, so all three cases are
observable in `aggregate_entities`. -/
inductive JField where
  | absent : JField
  | null : JField
  | num : ℚ → JField
deriving DecidableEq

/-- Python `item.get(k1, item.get(k2, 0))` over two numeric fields: the
first present key wins even when its value is `null` (Python `None`,
modelled as `Option.none`); when both keys are absent the default `0`
is returned. -/
def jfGet2 : JField → JField → Option ℚ
  | JField.absent, JField.absent => some 0
  | JField.absent, JField.null => none
  | JField.absent, JField.num v => some v
  | JField.null, _ => none
  | JField.num v, _ => some v

/-- Python `item.get(k, 0)` over one numeric field. -/
def jfGet1 : JField → Option ℚ
  | JField.absent => some 0
  | JField.null => none
  | JField.num v => some v

/-- Python `x or 0` on an optional number: `None` collapses to `0`
(and `0 or 0` is `0`, so this reading is exact). -/
def orZero : Option ℚ → ℚ
  | none => 0
  | some v => v

/-- The numeric fields `aggregate_entities` reads from a ranked item or
from one of its per-platform entity fragments. -/
structure MetricFields where
  units_absolute : JField
  absolute : JField
  comparison_units_value : JField
  units_delta : JField
  delta : JField
  units_transformed_delta : JField
  transformed_delta : JField
deriving DecidableEq

/-- One entry of a ranking response: its unified `app_id`, the
`entities` array of per-platform fragments, and the item's own
top-level metric fields (read only when `entities` is empty). -/
structure RankedItem where
  app_id : String
  entities : List MetricFields
  fields : MetricFields
deriving DecidableEq

/-- `x.get("units_absolute", x.get("absolute", 0)) or 0`. -/
def entAbs (e : MetricFields) : ℚ := orZero (jfGet2 e.units_absolute e.absolute)

/-- `x.get("comparison_units_value", 0) or 0`. -/
def entPrev (e : MetricFields) : ℚ := orZero (jfGet1 e.comparison_units_value)

/-- `x.get("units_delta", x.get("delta", 0)) or 0`. -/
def entDelta (e : MetricFields) : ℚ := orZero (jfGet2 e.units_delta e.delta)

/-- `x.get("units_transformed_delta", x.get("transformed_delta", 0))`,
with no `or 0`: a present `null` stays Python `None`. -/
def entTransformed (e : MetricFields) : Option ℚ :=
  jfGet2 e.units_transformed_delta e.transformed_delta

/-- Result record of `aggregate_entities`.  `pct_change` is optional
because the no-entities branch returns the raw transformed-delta field,
which can be Python `None`. -/
structure AggResult where
  downloads : ℤ
  prev_downloads : ℤ
  delta : ℤ
  pct_change : Option ℚ
deriving DecidableEq

/-- `aggregate_entities` (fetch_sensortower.py lines 368-413).  The
7-day window constant `DAYS = 7` appears literally.  The Python
condition `total_prev and total_prev > 0` is number truthiness followed
by a comparison, which for numbers is equivalent to `0 < total_prev`. -/
def aggregate_entities (item : RankedItem) : AggResult :=
  match item.entities with
  | [] =>
    { downloads := pyRound (qDiv (entAbs item.fields) 7)
      prev_downloads := pyRound (qDiv (entPrev item.fields) 7)
      delta := pyRound (qDiv (entDelta item.fields) 7)
      pct_change := entTransformed item.fields }
  | e0 :: rest =>
    let ents := e0 :: rest
    let total_downloads := ents.foldl (fun a e => qAdd a (entAbs e)) 0
    let total_prev := ents.foldl (fun a e => qAdd a (entPrev e)) 0
    let total_delta := ents.foldl (fun a e => qAdd a (entDelta e)) 0
    let pct_change : ℚ :=
      if 0 < total_prev then qDiv total_delta total_prev
      else orZero (entTransformed e0)
    { downloads := pyRound (qDiv total_downloads 7)
      prev_downloads := pyRound (qDiv total_prev 7)
      delta := pyRound (qDiv total_delta 7)
      pct_change := some pct_change }

/-- A fragment whose keys are all absent, for building test items. -/
def blankFields : MetricFields :=
  { units_absolute := JField.absent, absolute := JField.absent
    comparison_units_value := JField.absent
    units_delta := JField.absent, delta := JField.absent
    units_transformed_delta := JField.absent, transformed_delta := JField.absent }

/-- Metadata record built by `lookup_app` (fetch_sensortower.py lines
237-328): name, icon, publisher, description and the two store URLs. -/
structure AppMetadata where
  name : String
  icon_url : String
  publisher : String
  description : String
  ios_store_url : String
  android_store_url : String
deriving DecidableEq

/-- The all-Unknown/empty sentinel record used whenever a lookup fails
or an identifier is missing from a metadata mapping. -/
def sentinelInfo : AppMetadata :=
  { name := "Unknown", icon_url := "", publisher := "Unknown"
    description := "", ios_store_url := "", android_store_url := "" }

/-- First-match association-list lookup, the model of reading a Python
dict key (keys are inserted at most once, so first match is the value). -/
def assocFind {α : Type} : List (String × α) → String → Option α
  | [], _ => none
  | p :: rest, key => if p.1 = key then some p.2 else assocFind rest key

/-- `lookup_app` (lines 237-328), with the network portion of a cache
miss abstracted as the oracle `resolve` (the unified-endpoint call,
sub-app scan and platform-description call that produce the returned
record).  The function returns the metadata, the updated cache, and the
list of identifiers for which an underlying network resolution was
performed during this call (empty on a cache hit).  Python returns
`result.copy()`; copies are structurally equal, so they are modelled by
the value itself. -/
def lookup_app (resolve : String → AppMetadata)
    (cache : List (String × AppMetadata)) (id : String) :
    AppMetadata × List (String × AppMetadata) × List String :=
  match assocFind cache id with
  | some r => (r, cache, [])
  | none =>
    let r := resolve id
    (r, (id, r) :: cache, [id])

/-- Outcome of a sequence of `lookup_app` calls: per-call results in
call order, the final cache, and the concatenated resolution trace. -/
structure LookupRun where
  results : List (String × AppMetadata)
  cache : List (String × AppMetadata)
  trace : List String
deriving DecidableEq

/-- A sequence of `lookup_app` calls threaded through the shared cache.
This is the sequential-schedule semantics of the worker pool in
`parallel_lookup_apps` (lines 331-365): each submitted task runs
`lookup_app` against the shared cache. -/
def runLookups (resolve : String → AppMetadata)
    (cache : List (String × AppMetadata)) : List String → LookupRun
  | [] => { results := [], cache := cache, trace := [] }
  | id :: rest =>
    let step := lookup_app resolve cache id
    let cont := runLookups resolve step.2.1 rest
    { results := (id, step.1) :: cont.results
      cache := cont.cache
      trace := step.2.2 ++ cont.trace }

/-- `parallel_lookup_apps` (lines 331-365): partition the requested ids
into cached (served from the cache directly) and uncached, then run
`lookup_app` for each uncached id. -/
def parallel_lookup_apps (resolve : String → AppMetadata)
    (cache : List (String × AppMetadata)) (ids : List String) : LookupRun :=
  let hits := ids.filterMap (fun id => (assocFind cache id).map (fun m => (id, m)))
  let uncached := ids.filter (fun id => (assocFind cache id).isNone)
  let run := runLookups resolve cache uncached
  { results := hits ++ run.results, cache := run.cache, trace := run.trace }

/-- The run-level date strings threaded into every row. -/
structure RunDates where
  fetch_date : String
  period_start : String
  period_end : String
  prev_period_start : String
  prev_period_end : String
deriving DecidableEq

/-- Python `round(pct_change * 100, 2)` on an optional value: `none`
(Python `None`) cannot be multiplied, so the result is undefined —
modelled as `none` propagating (the Python code would raise a
`TypeError` at this point). -/
def pctScale : Option ℚ → Option ℚ
  | none => none
  | some v => some (roundTo2 (qMul v 100))

/-- One output row of the download rankings (the dict built by
`build_row`, lines 532-551). -/
structure Row where
  fetch_date : String
  period_start : String
  period_end : String
  prev_period_start : String
  prev_period_end : String
  rank : ℕ
  app_id : String
  app_name : String
  publisher : String
  icon_url : String
  downloads : ℤ
  previous_downloads : ℤ
  download_delta : ℤ
  download_pct_change : Option ℚ
  app_description : String
  ios_store_url : String
  android_store_url : String
deriving DecidableEq

/-- `build_row` (lines 532-551): assemble one output row from the rank,
unified id, resolved metadata and aggregated metrics. -/
def build_row (ds : RunDates) (rank : ℕ) (unified_id : String)
    (app_info : AppMetadata) (agg : AggResult) : Row :=
  { fetch_date := ds.fetch_date
    period_start := ds.period_start
    period_end := ds.period_end
    prev_period_start := ds.prev_period_start
    prev_period_end := ds.prev_period_end
    rank := rank
    app_id := unified_id
    app_name := app_info.name
    publisher := app_info.publisher
    icon_url := app_info.icon_url
    downloads := agg.downloads
    previous_downloads := agg.prev_downloads
    download_delta := agg.delta
    download_pct_change := pctScale agg.pct_change
    app_description := app_info.description
    ios_store_url := app_info.ios_store_url
    android_store_url := app_info.android_store_url }

/-- The row loop of `_build_rows_parallel` (lines 472-498), carrying
the 1-based rank counter of `enumerate(data, 1)`. -/
def buildRowsAux (ds : RunDates) (infos : List (String × AppMetadata)) :
    ℕ → List RankedItem → List Row
  | _, [] => []
  | rank, item :: rest =>
    build_row ds rank item.app_id ((assocFind infos item.app_id).getD sentinelInfo)
        (aggregate_entities item)
      :: buildRowsAux ds infos (rank + 1) rest

/-- `_build_rows_parallel` (lines 472-498).  The metadata mapping
`infos` is the dictionary `app_infos` produced by the parallel lookup;
passing it as a finished mapping makes the assembly independent of the
order in which the lookups completed.  `app_infos.get(uid, default)`
is `(assocFind infos uid).getD sentinelInfo`. -/
def build_rows_parallel (ds : RunDates) (data : List RankedItem)
    (infos : List (String × AppMetadata)) : List Row :=
  buildRowsAux ds infos 1 data

/-- An HTTP attempt outcome seen by `st_get`: a response with a status
code and body text, or a raised exception (`requests` error). -/
inductive HttpOutcome where
  | resp : ℕ → String → HttpOutcome
  | exc : HttpOutcome

/-- Observable result of `st_get`: the returned JSON body (modelled as
the raw body string of the 200 response) or `None`; the number of
attempts made; the backoff sleeps performed, in seconds and in order;
and the `params` dict as the caller sees it after the call. -/
structure StGetOut where
  result : Option String
  attempts : ℕ
  sleeps : List ℕ
  params : List (String × String)
deriving DecidableEq

/-- Python dict assignment `d[k] = v`: replace in place when the key
exists, else append. -/
def dictSet (ps : List (String × String)) (k v : String) : List (String × String) :=
  if (assocFind ps k).isSome then
    ps.map (fun p => if p.1 = k then (k, v) else p)
  else ps ++ [(k, v)]

/-- The retry loop of `st_get` (lines 216-234), driven by the response
oracle.  `fuel` counts the remaining iterations of `range(5)` and
`attempt` is the loop index.  Status 200 returns the body; 429 sleeps
`10 * (attempt + 1)` seconds and retries; any other status sleeps 3
seconds when `attempt < 4` and retries; an exception sleeps 5 seconds
when `attempt < 4` and retries.  Exhausting the loop returns `None`. -/
def st_getAux (responses : ℕ → HttpOutcome) : ℕ → ℕ → Option String × ℕ × List ℕ
  | 0, _ => (none, 0, [])
  | fuel + 1, attempt =>
    match responses attempt with
    | HttpOutcome.resp status body =>
      if status = 200 then (some body, 1, [])
      else if status = 429 then
        let o := st_getAux responses fuel (attempt + 1)
        (o.1, o.2.1 + 1, 10 * (attempt + 1) :: o.2.2)
      else
        let o := st_getAux responses fuel (attempt + 1)
        (o.1, o.2.1 + 1, (if attempt < 4 then [3] else []) ++ o.2.2)
    | HttpOutcome.exc =>
      let o := st_getAux responses fuel (attempt + 1)
      (o.1, o.2.1 + 1, (if attempt < 4 then [5] else []) ++ o.2.2)

/-- `st_get` (lines 213-234): writes the auth token into the
caller-supplied `params` dict (`params["auth_token"] = ST_API_KEY`)
before the first attempt, then runs the 5-attempt retry loop.  The
returned `params` component is the dict object as the caller observes
it afterwards. -/
def st_get (apiKey : String) (params : List (String × String))
    (responses : ℕ → HttpOutcome) : StGetOut :=
  let ps := dictSet params "auth_token" apiKey
  let o := st_getAux responses 5 0
  { result := o.1, attempts := o.2.1, sleeps := o.2.2, params := ps }

/-- An HTTP attempt outcome seen by `call_gemini`: a response with a
status code, body text, and — when the status is 200 and the payload
carries `candidates` — the extracted text; or a raised exception. -/
inductive GemOutcome where
  | resp : ℕ → String → Option String → GemOutcome
  | exc : GemOutcome

/-- Observable result of `call_gemini`: returned text or `None`, the
number of attempts made, the backoff sleeps in order, and the logged
permanent errors (status with a 200-character body snippet). -/
structure GemOut where
  result : Option String
  attempts : ℕ
  sleeps : List ℕ
  errorLog : List (ℕ × String)
deriving DecidableEq

/-- The retry loop of `call_gemini` (lines 89-114).  A 200 response
with candidates returns the text; a 200 response without candidates
falls through to the next attempt with no sleep; 429/500/502/503/504
sleeps `3 * 2 ^ attempt` seconds and retries; any other status logs the
status and a 200-character body snippet and returns `None` immediately;
an exception sleeps 3 seconds when `attempt < retries - 1` and
retries.  Exhausting the loop returns `None`. -/
def call_geminiAux (responses : ℕ → GemOutcome) (retries : ℕ) :
    ℕ → ℕ → GemOut
  | 0, _ => { result := none, attempts := 0, sleeps := [], errorLog := [] }
  | fuel + 1, attempt =>
    match responses attempt with
    | GemOutcome.resp status body text =>
      if status = 200 then
        match text with
        | some t => { result := some t, attempts := 1, sleeps := [], errorLog := [] }
        | none =>
          let o := call_geminiAux responses retries fuel (attempt + 1)
          { o with attempts := o.attempts + 1 }
      else if status = 429 ∨ status = 500 ∨ status = 502 ∨ status = 503 ∨ status = 504 then
        let o := call_geminiAux responses retries fuel (attempt + 1)
        { o with attempts := o.attempts + 1, sleeps := 3 * 2 ^ attempt :: o.sleeps }
      else
        { result := none, attempts := 1, sleeps := []
          errorLog := [(status, body.take 200)] }
    | GemOutcome.exc =>
      let o := call_geminiAux responses retries fuel (attempt + 1)
      { o with attempts := o.attempts + 1
               sleeps := (if attempt < retries - 1 then [3] else []) ++ o.sleeps }

/-- `call_gemini` (lines 76-114) at its default `retries=3`; a missing
`GEMINI_API_KEY` returns `None` before any attempt. -/
def call_gemini (hasKey : Bool) (responses : ℕ → GemOutcome) : GemOut :=
  if hasKey then call_geminiAux responses 3 3 0
  else { result := none, attempts := 0, sleeps := [], errorLog := [] }

/-- A request issued by `upsert_rows` against the storage sink. -/
inductive SinkReq (α : Type) where
  | deleteAll : SinkReq α
  | insertBatch : List α → SinkReq α
  | insertRow : α → SinkReq α
deriving DecidableEq

/-- `rows[i:i+50]` slices of `range(0, len(rows), 50)`, via fuel. -/
def chunksAux {α : Type} : ℕ → List α → List (List α)
  | 0, _ => []
  | _, [] => []
  | fuel + 1, x :: xs => (x :: xs).take 50 :: chunksAux fuel ((x :: xs).drop 50)

/-- The batch decomposition used by `upsert_rows` (`batch_size = 50`). -/
def chunks50 {α : Type} (l : List α) : List (List α) := chunksAux l.length l

/-- The insert loop of `upsert_rows` (lines 449-465): insert each batch;
on a batch failure, retry each of its rows individually.  Returns the
rows that ended up inserted (in order), the `total_inserted` counter,
and the trace of issued requests. -/
def runInserts {α : Type} (batchOk : List α → Bool) (rowOk : α → Bool) :
    List (List α) → List α × ℕ × List (SinkReq α)
  | [] => ([], 0, [])
  | b :: bs =>
    let rest := runInserts batchOk rowOk bs
    if batchOk b then
      (b ++ rest.1, b.length + rest.2.1, SinkReq.insertBatch b :: rest.2.2)
    else
      let good := b.filter (fun r => rowOk r)
      (good ++ rest.1, good.length + rest.2.1,
        SinkReq.insertBatch b :: (b.map SinkReq.insertRow ++ rest.2.2))

/-- `upsert_rows` (lines 432-467).  An empty row list returns without
any request.  Otherwise a delete-all request is issued first (its
failure only logs a warning, leaving the old rows in place), then the
batched inserts run.  Returns the final table contents, the
`total_inserted` counter, and the request trace. -/
def upsert_rows {α : Type} (delOk : Bool) (batchOk : List α → Bool)
    (rowOk : α → Bool) (table rows : List α) :
    List α × ℕ × List (SinkReq α) :=
  if rows.isEmpty then (table, 0, []) else
  let t1 := if delOk then [] else table
  let ins := runInserts batchOk rowOk (chunks50 rows)
  (t1 ++ ins.1, ins.2.1, SinkReq.deleteAll :: ins.2.2)

instance : Inhabited MetricFields := ⟨blankFields⟩

/-- Concrete fragments for the C1 scenario: two platform fragments
whose deltas total 70 against a previous total of 700. -/
def c1Item : RankedItem :=
  { app_id := "a"
    entities :=
      [ { blankFields with
            comparison_units_value := JField.num 300,
            units_delta := JField.num 30 }
      , { blankFields with
            comparison_units_value := JField.num 400,
            units_delta := JField.num 40 } ]
    fields := blankFields }

/-- Concrete fragments for the C7 scenario:
[{absolute:70, prev:70, delta:0}, {absolute:140, prev:140, delta:0}]. -/
def c7Item : RankedItem :=
  { app_id := "a"
    entities :=
      [ { blankFields with
            units_absolute := JField.num 70,
            comparison_units_value := JField.num 70,
            units_delta := JField.num 0 }
      , { blankFields with
            units_absolute := JField.num 140,
            comparison_units_value := JField.num 140,
            units_delta := JField.num 0 } ]
    fields := blankFields }

/-- The metric fields of the C5 counterexample: top-level values
absolute 70, comparison 700, delta 70, with a pre-computed
transformed delta of 1/2 (which differs from 70 / 700 = 1/10). -/
def c5Fields : MetricFields :=
  { blankFields with
      units_absolute := JField.num 70,
      comparison_units_value := JField.num 700,
      units_delta := JField.num 70,
      units_transformed_delta := JField.num (Rat.divInt 1 2) }

/-- The all-null item used to witness C9. -/
def c9Item : RankedItem :=
  { app_id := "a"
    entities := []
    fields :=
      { units_absolute := JField.null, absolute := JField.absent
        comparison_units_value := JField.null
        units_delta := JField.null, delta := JField.absent
        units_transformed_delta := JField.null, transformed_delta := JField.absent } }

def c9Dates : RunDates :=
  { fetch_date := "2026-10-10", period_start := "2026-10-02", period_end := "2026-10-08"
    prev_period_start := "2026-09-25", prev_period_end := "2026-10-01" }

/-- A concrete resolver for the C2 witness scenario. -/
def resolveNamed : String → AppMetadata :=
  fun id => { sentinelInfo with name := id }

/-- Concrete inputs for the C3 witness: two ranked items, one covered
by the mapping and one missing from it. -/
def c3Data : List RankedItem :=
  [ { app_id := "A", entities := [c7Item.entities.headI], fields := blankFields }
  , { app_id := "B", entities := [], fields := blankFields } ]

def c3Infos : List (String × AppMetadata) :=
  [("A", { sentinelInfo with name := "Alpha", publisher := "Acme" })]

/-- Constant-404 response oracle used in the C4 scenarios. -/
def resp404 : ℕ → HttpOutcome := fun _ => HttpOutcome.resp 404 "Not Found"

/-- Constant-404 Gemini oracle used in the C4 witness. -/
def gem404 : ℕ → GemOutcome := fun _ => GemOutcome.resp 404 "bad request" none


def lbrace : Char := Char.ofNat 123

def rbrace : Char := Char.ofNat 125

def backquote : Char := Char.ofNat 96

/-- Python regex `\s` over the ASCII range (also the character set of
`str.strip`). -/
def isWs (c : Char) : Bool :=
  c = ' ' || c = '\t' || c = '\n' || c = '\r' || c = '\x0b' || c = '\x0c'

/-- JSON inter-token whitespace accepted by `json.loads`. -/
def jsonWs (c : Char) : Bool := c = ' ' || c = '\t' || c = '\n' || c = '\r'

/-- Python `str.strip()`. -/
def pyStrip (l : List Char) : List Char :=
  ((l.dropWhile isWs).reverse.dropWhile isWs).reverse

def fence3 : List Char := [backquote, backquote, backquote]

def jsonWord : List Char := ['j', 's', 'o', 'n']

/-- The fence-stripping prelude of the response parser
(fetch_sensortower.py lines 164-168): strip, then — when the text
starts with a code fence — remove a leading fence with an optional
language tag and trailing whitespace, remove a trailing fence with the
whitespace before it, and strip again. -/
def stripFences (result : List Char) : List Char :=
  let cleaned := pyStrip result
  if cleaned.take 3 = fence3 then
    let a := cleaned.drop 3
    let b := if a.take 4 = jsonWord then a.drop 4 else a
    let c := b.dropWhile isWs
    let r := c.reverse
    let d := if r.take 3 = fence3 then ((r.drop 3).dropWhile isWs).reverse else c
    pyStrip d
  else cleaned

/-- JSON values as produced by `json.loads` (object keys keep their
textual form; numbers are exact rationals, so fractional literals are
parsed exactly rather than through binary floating point, and the
non-standard NaN/Infinity extensions are not modelled). -/
inductive Json where
  | null : Json
  | bool : Bool → Json
  | num : ℚ → Json
  | str : List Char → Json
  | arr : List Json → Json
  | obj : List (List Char × Json) → Json

def hexVal (c : Char) : Option ℕ :=
  if '0' ≤ c ∧ c ≤ '9' then some (c.toNat - 48)
  else if 'a' ≤ c ∧ c ≤ 'f' then some (c.toNat - 87)
  else if 'A' ≤ c ∧ c ≤ 'F' then some (c.toNat - 55)
  else none

def escChar (e : Char) : Option Char :=
  if e = '"' then some '"'
  else if e = '\\' then some '\\'
  else if e = '/' then some '/'
  else if e = 'b' then some (Char.ofNat 8)
  else if e = 'f' then some (Char.ofNat 12)
  else if e = 'n' then some '\n'
  else if e = 'r' then some '\r'
  else if e = 't' then some '\t'
  else none

/-- JSON string body after the opening quote: strict mode (bare control
characters rejected), standard escapes and `\uXXXX`. -/
def parseStrBody : ℕ → List Char → Option (List Char × List Char)
  | 0, _ => none
  | fuel + 1, l =>
    match l with
    | [] => none
    | c :: r =>
      if c = '"' then some ([], r)
      else if c = '\\' then
        match r with
        | [] => none
        | e :: r2 =>
          match escChar e with
          | some ec => (parseStrBody fuel r2).map (fun p => (ec :: p.1, p.2))
          | none =>
            if e = 'u' then
              match r2 with
              | h1 :: h2 :: h3 :: h4 :: r3 =>
                match hexVal h1, hexVal h2, hexVal h3, hexVal h4 with
                | some a, some b, some c2, some d =>
                  (parseStrBody fuel r3).map
                    (fun p => (Char.ofNat (((a * 16 + b) * 16 + c2) * 16 + d) :: p.1, p.2))
                | _, _, _, _ => none
              | _ => none
            else none
      else if c.toNat < 32 then none
      else (parseStrBody fuel r).map (fun p => (c :: p.1, p.2))

def digitsToNat (ds : List Char) : ℕ := ds.foldl (fun n c => 10 * n + (c.toNat - 48)) 0

def mkNum (neg : Bool) (ds fds : List Char) (e : ℤ) : ℚ :=
  let m : ℤ := (digitsToNat (ds ++ fds) : ℤ)
  let m2 : ℤ := if neg then -m else m
  let sc : ℤ := e - (fds.length : ℤ)
  if 0 ≤ sc then Rat.divInt (m2 * (10 : ℤ) ^ sc.toNat) 1
  else Rat.divInt m2 ((10 : ℤ) ^ (-sc).toNat)

def parseExpTail (neg : Bool) (ds fds : List Char) (l : List Char) : Option (ℚ × List Char) :=
  let sgn : Bool × List Char :=
    match l with
    | '+' :: r => (false, r)
    | '-' :: r => (true, r)
    | _ => (false, l)
  let eds := sgn.2.takeWhile (fun c => c.isDigit)
  if eds = [] then none
  else
    let e : ℤ := if sgn.1 then -(digitsToNat eds : ℤ) else (digitsToNat eds : ℤ)
    some (mkNum neg ds fds e, sgn.2.dropWhile (fun c => c.isDigit))

def parseExp (neg : Bool) (ds fds : List Char) (l : List Char) : Option (ℚ × List Char) :=
  match l with
  | 'e' :: r => parseExpTail neg ds fds r
  | 'E' :: r => parseExpTail neg ds fds r
  | _ => some (mkNum neg ds fds 0, l)

/-- JSON number grammar: optional minus, integer part with the
no-leading-zero rule, optional fraction and exponent. -/
def parseNumber (l : List Char) : Option (ℚ × List Char) :=
  let sgn : Bool × List Char :=
    match l with
    | '-' :: r => (true, r)
    | _ => (false, l)
  let ds := sgn.2.takeWhile (fun c => c.isDigit)
  let l2 := sgn.2.dropWhile (fun c => c.isDigit)
  if ds = [] then none
  else if 1 < ds.length ∧ ds.take 1 = ['0'] then none
  else
    match l2 with
    | '.' :: r =>
      let fds := r.takeWhile (fun c => c.isDigit)
      if fds = [] then none
      else parseExp sgn.1 ds fds (r.dropWhile (fun c => c.isDigit))
    | _ => parseExp sgn.1 ds [] l2

mutual

/-- One JSON value, fuelled recursive descent. -/
def parseVal : ℕ → List Char → Option (Json × List Char)
  | 0, _ => none
  | fuel + 1, l =>
    let l1 := l.dropWhile (fun c => jsonWs c)
    match l1 with
    | 'n' :: 'u' :: 'l' :: 'l' :: r => some (Json.null, r)
    | 't' :: 'r' :: 'u' :: 'e' :: r => some (Json.bool true, r)
    | 'f' :: 'a' :: 'l' :: 's' :: 'e' :: r => some (Json.bool false, r)
    | '"' :: r => (parseStrBody (r.length + 1) r).map (fun p => (Json.str p.1, p.2))
    | '[' :: r =>
      let r1 := r.dropWhile (fun c => jsonWs c)
      match r1 with
      | ']' :: r2 => some (Json.arr [], r2)
      | _ => parseArrTail fuel r1 []
    | c :: r =>
      if c = lbrace then
        let r1 := r.dropWhile (fun c => jsonWs c)
        match r1 with
        | [] => none
        | c2 :: r2 => if c2 = rbrace then some (Json.obj [], r2) else parseObjTail fuel r1 []
      else (parseNumber l1).map (fun p => (Json.num p.1, p.2))
    | [] => none

def parseArrTail : ℕ → List Char → List Json → Option (Json × List Char)
  | 0, _, _ => none
  | fuel + 1, l, acc =>
    match parseVal fuel l with
    | none => none
    | some (v, rest) =>
      match rest.dropWhile (fun c => jsonWs c) with
      | ',' :: r2 => parseArrTail fuel r2 (v :: acc)
      | ']' :: r2 => some (Json.arr (v :: acc).reverse, r2)
      | _ => none

def parseObjTail : ℕ → List Char → List (List Char × Json) → Option (Json × List Char)
  | 0, _, _ => none
  | fuel + 1, l, acc =>
    match l with
    | '"' :: r =>
      match parseStrBody (r.length + 1) r with
      | none => none
      | some (key, r2) =>
        match r2.dropWhile (fun c => jsonWs c) with
        | ':' :: r3 =>
          match parseVal fuel r3 with
          | none => none
          | some (v, r4) =>
            match r4.dropWhile (fun c => jsonWs c) with
            | ',' :: r5 =>
              parseObjTail fuel (r5.dropWhile (fun c => jsonWs c)) ((key, v) :: acc)
            | c5 :: r5 =>
              if c5 = rbrace then some (Json.obj ((key, v) :: acc).reverse, r5) else none
            | [] => none
        | _ => none
    | _ => none

end

/-- `json.loads`: the whole input (modulo surrounding whitespace) must
be a single JSON value; `none` models `json.JSONDecodeError`. -/
def parseJsonChars (l : List Char) : Option Json :=
  match parseVal (2 * l.length + 2) l with
  | some (j, rest) => if rest.dropWhile (fun c => jsonWs c) = [] then some j else none
  | none => none

/-- The lazy body scan of `re.search` for the stage-2 pattern: after
the opening bracket-and-brace prefix, the lazy `.*?` stops at the first
closing brace that is followed by optional whitespace and `]`. -/
def closeScan : List Char → List Char → Option (List Char)
  | _, [] => none
  | acc, c :: rest =>
    if c = rbrace then
      match rest.dropWhile isWs with
      | ']' :: _ => some (acc.reverse ++ c :: (rest.takeWhile isWs ++ [']']))
      | _ => closeScan (c :: acc) rest
    else closeScan (c :: acc) rest

def arrSearchAt (l : List Char) : Option (List Char) :=
  match l with
  | '[' :: r =>
    let ws1 := r.takeWhile isWs
    match r.dropWhile isWs with
    | c :: r2 =>
      if c = lbrace then (closeScan [] r2).map (fun tail => '[' :: (ws1 ++ c :: tail))
      else none
    | [] => none
  | _ => none

/-- Stage-2 regex search (line 175): the leftmost, then shortest,
substring shaped like a JSON array of objects — the DOTALL pattern
bracket, whitespace, brace, minimal body, brace, whitespace,
bracket. -/
def arrSearch : List Char → Option (List Char)
  | [] => none
  | c :: rest =>
    match arrSearchAt (c :: rest) with
    | some m => some m
    | none => arrSearch rest

def litMatch (lit l : List Char) : Option (List Char) :=
  if l.take lit.length = lit then some (l.drop lit.length) else none

def charMatch (c : Char) (l : List Char) : Option (List Char) :=
  match l with
  | x :: r => if x = c then some r else none
  | [] => none

/-- The summary-group scan of the stage-3 regex: characters other than
quote and backslash, or a backslash followed by any character except a
newline (the pattern has no DOTALL flag), kept in raw escaped form,
up to the closing quote. -/
def sumBody : List Char → Option (List Char × List Char)
  | [] => none
  | '"' :: r => some ([], r)
  | '\\' :: e :: r =>
    if e = '\n' then none
    else (sumBody r).map (fun p => ('\\' :: e :: p.1, p.2))
  | ['\\'] => none
  | c :: r => (sumBody r).map (fun p => (c :: p.1, p.2))

/-- One match attempt of the stage-3 regex (line 184) at the current
position: the literal quoted key `index`, colon, digits, comma, the
literal quoted key `summary`, colon, and a quoted raw string. -/
def idxMatchAt (l : List Char) : Option ((ℕ × List Char) × List Char) :=
  match litMatch ("\"index\"".data) l with
  | none => none
  | some l1 =>
    match charMatch ':' (l1.dropWhile isWs) with
    | none => none
    | some l3 =>
      let l4 := l3.dropWhile isWs
      let digits := l4.takeWhile (fun c => c.isDigit)
      if digits = [] then none else
      match charMatch ',' ((l4.dropWhile (fun c => c.isDigit)).dropWhile isWs) with
      | none => none
      | some l7 =>
        match litMatch ("\"summary\"".data) (l7.dropWhile isWs) with
        | none => none
        | some l9 =>
          match charMatch ':' (l9.dropWhile isWs) with
          | none => none
          | some l11 =>
            match charMatch '"' (l11.dropWhile isWs) with
            | none => none
            | some l13 =>
              match sumBody l13 with
              | none => none
              | some (body, rest) => some ((digitsToNat digits, body), rest)

/-- `re.finditer` for the stage-3 pattern: non-overlapping leftmost
matches, scanning left to right. -/
def findIterAux : ℕ → List Char → List (ℕ × List Char)
  | 0, _ => []
  | fuel + 1, l =>
    match l with
    | [] => []
    | c :: rest =>
      match idxMatchAt (c :: rest) with
      | some (item, after) => item :: findIterAux fuel after
      | none => findIterAux fuel rest

/-- One parsed `{index, summary}` entry of the summaries list. -/
structure SItem where
  index : ℤ
  summary : String
deriving DecidableEq

/-- Stage 3 (lines 183-188): regex-extracted index/summary pairs; the
captured summary text keeps its escape sequences unexpanded. -/
def stage3Items (result : List Char) : List SItem :=
  (findIterAux result.length result).map
    (fun p => { index := (p.1 : ℤ), summary := String.mk p.2 })

/-- Python truthiness of a JSON-decoded value (`if not summaries`). -/
def jtruthy : Json → Bool
  | Json.null => false
  | Json.bool b => b
  | Json.num q => decide (q ≠ 0)
  | Json.str s => !s.isEmpty
  | Json.arr xs => !xs.isEmpty
  | Json.obj fs => !fs.isEmpty

/-- Dict field read on a decoded JSON object: duplicate keys keep the
last occurrence, as in Python dicts built by `json.loads`. -/
def objLast (fs : List (List Char × Json)) (k : List Char) : Option Json :=
  ((fs.filter (fun p => decide (p.1 = k))).getLast?).map (fun p => p.2)

/-- `item.get("index", 0) - 1` requires an integer; any other decoded
value would raise in the apply loop, which is out of the modelled
well-formed responses (`none`). -/
def idxOfJson : Option Json → Option ℤ
  | none => some 0
  | some (Json.num q) => if q.den = 1 then some q.num else none
  | some _ => none

/-- `item.get("summary", "")` as a string; a non-string decoded value
is out of the modelled well-formed responses (`none`). -/
def sumOfJson : Option Json → Option String
  | none => some ""
  | some (Json.str cs) => some (String.mk cs)
  | some _ => none

def itemOfJson : Json → Option SItem
  | Json.obj fs =>
    match idxOfJson (objLast fs ("index".data)), sumOfJson (objLast fs ("summary".data)) with
    | some i, some s => some { index := i, summary := s }
    | _, _ => none
  | _ => none

/-- A decoded summaries value as a list of well-formed entries; a
non-array value (or one with non-object/ill-typed entries) is out of
the modelled well-formed responses. -/
def summariesOfJson : Json → Option (List SItem)
  | Json.arr xs => xs.mapM itemOfJson
  | _ => none

/-- Stage 1 (lines 171-172): `json.loads` of the fence-stripped text. -/
def stage1Json (result : List Char) : Option Json := parseJsonChars (stripFences result)

/-- Stage 2 (lines 174-180): regex extraction of the first
array-of-objects-shaped substring of the raw response, then
`json.loads` of the match. -/
def stage2Json (result : List Char) : Option Json := (arrSearch result).bind parseJsonChars

/-- The Python variable `summaries` after stages 1 and 2: the stage-1
parse when it succeeds (stage 2 runs only on a `JSONDecodeError`), else
the stage-2 parse when its regex matches and parses, else the initial
empty list. -/
def summariesAfter12 (result : List Char) : Json :=
  match stage1Json result with
  | some j => j
  | none =>
    match stage2Json result with
    | some j => j
    | none => Json.arr []

/-- `rows[idx]["app_description"] = summary` at a 0-based index. -/
def setDescAt : List Row → ℕ → String → List Row
  | [], _, _ => []
  | r :: rs, 0, s => { r with app_description := s } :: rs
  | r :: rs, n + 1, s => r :: setDescAt rs n s

/-- One iteration of the apply loop (lines 196-201): `idx` is the
1-based `index` minus one; the write happens only when `0 <= idx <
len(rows)` and the summary text is non-empty. -/
def applyOne (rs : List Row) (it : SItem) : List Row :=
  if 0 ≤ it.index - 1 ∧ it.index - 1 < (rs.length : ℤ) ∧ it.summary ≠ "" then
    setDescAt rs (it.index - 1).toNat it.summary
  else rs

def applyItems (rows : List Row) (items : List SItem) : List Row :=
  items.foldl applyOne rows

/-- `batch_summarize_descriptions` (lines 117-204) with the
text-generation call abstracted as its returned text (`result`): empty
input rows or a missing key return the rows unchanged, as does a `None`
or empty response; otherwise the three-stage parse chain runs and the
parsed summaries are applied by index.  The outer `none` marks a
response whose decoded shape would raise in the apply loop (out of the
modelled well-formed responses). -/
def batch_summarize_descriptions (hasKey : Bool) (rows : List Row)
    (result : Option String) : Option (List Row) :=
  if rows.isEmpty ∨ hasKey = false then some rows else
  match result with
  | none => some rows
  | some res =>
    if res = "" then some rows else
    let rc := res.data
    let j := summariesAfter12 rc
    if jtruthy j then
      (summariesOfJson j).map (fun items => applyItems rows items)
    else
      let items := stage3Items rc
      if items.isEmpty then some rows else some (applyItems rows items)

/-- A row with a given description and all other fields defaulted,
for the C6 scenarios. -/
def sampleRow (d : String) : Row :=
  { fetch_date := "", period_start := "", period_end := "", prev_period_start := ""
    prev_period_end := "", rank := 0, app_id := "", app_name := "", publisher := ""
    icon_url := "", downloads := 0, previous_downloads := 0, download_delta := 0
    download_pct_change := none, app_description := d, ios_store_url := ""
    android_store_url := "" }

def c6Rows : List Row := [sampleRow "old1", sampleRow "old2"]

def c6Fenced : String := "```json\n[\x7b\"index\": 1, \"summary\": \"S1.\"\x7d]\n```"

def c6Narrative : String := "Sure: [\x7b\"index\": 2, \"summary\": \"S2.\"\x7d] ok"

def c6Malformed : String := "[\x7b\"index\": 1, \"summary\": \"S3.\"\x7d,"

def c6Garbage : String := "no structured output here"

def c6FencedJson : Json :=
  Json.arr [Json.obj [("index".data, Json.num 1), ("summary".data, Json.str "S1.".data)]]

def c6NarrativeJson : Json :=
  Json.arr [Json.obj [("index".data, Json.num 2), ("summary".data, Json.str "S2.".data)]]

theorem qAdd_eq (a b : ℚ) : qAdd a b = a + b := by
  have ha : ((a.den : ℚ)) ≠ 0 := by exact_mod_cast a.den_pos.ne'
  have hb : ((b.den : ℚ)) ≠ 0 := by exact_mod_cast b.den_pos.ne'
  rw [qAdd, Rat.divInt_eq_div]
  push_cast
  conv_rhs => rw [← Rat.num_div_den a, ← Rat.num_div_den b]
  field_simp

theorem qMul_eq (a b : ℚ) : qMul a b = a * b := by
  have ha : ((a.den : ℚ)) ≠ 0 := by exact_mod_cast a.den_pos.ne'
  have hb : ((b.den : ℚ)) ≠ 0 := by exact_mod_cast b.den_pos.ne'
  rw [qMul, Rat.divInt_eq_div]
  push_cast
  conv_rhs => rw [← Rat.num_div_den a, ← Rat.num_div_den b]
  field_simp

theorem qDiv_eq (a b : ℚ) : qDiv a b = a / b := by
  rcases eq_or_ne b 0 with hb | hb
  · subst hb
    simp [qDiv, Rat.divInt_eq_div]
  · have hbn : ((b.num : ℚ)) ≠ 0 := by exact_mod_cast Rat.num_ne_zero.mpr hb
    have ha : ((a.den : ℚ)) ≠ 0 := by exact_mod_cast a.den_pos.ne'
    have hd : ((b.den : ℚ)) ≠ 0 := by exact_mod_cast b.den_pos.ne'
    rw [qDiv, Rat.divInt_eq_div]
    push_cast
    conv_rhs => rw [← Rat.num_div_den a, ← Rat.num_div_den b]
    field_simp

theorem pyRound_half_le (q : ℚ) : |q - (pyRound q : ℚ)| ≤ 1 / 2 := by
  have hd : (0 : ℚ) < (q.den : ℚ) := by exact_mod_cast q.den_pos
  have hd0 : ((q.den : ℚ)) ≠ 0 := hd.ne'
  have h0 := Rat.num_div_den q
  rw [div_eq_iff hd0] at h0
  have hfl : ((⌊q⌋ : ℤ) : ℚ) ≤ q := Int.floor_le q
  have hfu : q < ((⌊q⌋ : ℤ) : ℚ) + 1 := Int.lt_floor_add_one q
  rw [pyRound]
  split_ifs with h1 h2 h3
  · have hc : 2 * ((q.num : ℚ) - ((⌊q⌋ : ℤ) : ℚ) * (q.den : ℚ)) < (q.den : ℚ) := by
      exact_mod_cast h1
    rw [h0] at hc
    rw [abs_le]
    constructor <;> nlinarith
  · have hc : (q.den : ℚ) < 2 * ((q.num : ℚ) - ((⌊q⌋ : ℤ) : ℚ) * (q.den : ℚ)) := by
      exact_mod_cast h2
    rw [h0] at hc
    rw [abs_le]
    push_cast
    constructor <;> nlinarith
  · have hc : 2 * ((q.num : ℚ) - ((⌊q⌋ : ℤ) : ℚ) * (q.den : ℚ)) = (q.den : ℚ) := by
      exact_mod_cast le_antisymm (not_lt.mp h2) (not_lt.mp h1)
    rw [h0] at hc
    rw [abs_le]
    constructor <;> nlinarith
  · have hc : 2 * ((q.num : ℚ) - ((⌊q⌋ : ℤ) : ℚ) * (q.den : ℚ)) = (q.den : ℚ) := by
      exact_mod_cast le_antisymm (not_lt.mp h2) (not_lt.mp h1)
    rw [h0] at hc
    rw [abs_le]
    push_cast
    constructor <;> nlinarith

/-- `pyRound` really is a nearest-integer rounding: no integer is
strictly closer to `q` than `pyRound q`. -/
theorem pyRound_nearest (q : ℚ) (n : ℤ) :
    |q - (pyRound q : ℚ)| ≤ |q - (n : ℚ)| := by
  rcases eq_or_ne n (pyRound q) with h | h
  · subst h; exact le_refl _
  · have hne : (pyRound q - n : ℤ) ≠ 0 := sub_ne_zero.mpr (Ne.symm h)
    have h1 : (1 : ℚ) ≤ |(pyRound q : ℚ) - (n : ℚ)| := by
      have h1z := Int.one_le_abs hne
      have hcast : ((|pyRound q - n| : ℤ) : ℚ) = |(pyRound q : ℚ) - (n : ℚ)| := by
        push_cast
        rfl
      rw [← hcast]
      exact_mod_cast h1z
    have h2 := pyRound_half_le q
    have h3 : |(pyRound q : ℚ) - (n : ℚ)| ≤ |q - (pyRound q : ℚ)| + |q - (n : ℚ)| := by
      have habs := abs_add ((pyRound q : ℚ) - q) (q - (n : ℚ))
      have hsum : ((pyRound q : ℚ) - q) + (q - (n : ℚ)) = (pyRound q : ℚ) - (n : ℚ) := by ring
      rw [hsum] at habs
      rw [abs_sub_comm ((pyRound q : ℚ)) q] at habs
      exact habs
    linarith

theorem foldl_qAdd_eq_sum {α : Type} (f : α → ℚ) :
    ∀ (l : List α) (a : ℚ), l.foldl (fun acc e => qAdd acc (f e)) a = a + (l.map f).sum := by
  intro l
  induction l with
  | nil => intro a; simp
  | cons x xs ih =>
    intro a
    simp only [List.foldl_cons, List.map_cons, List.sum_cons]
    rw [ih, qAdd_eq]
    ring

theorem foldl_qAdd_map_sum {α : Type} (f : α → ℚ) (l : List α) :
    l.foldl (fun acc e => qAdd acc (f e)) 0 = (l.map f).sum := by
  rw [foldl_qAdd_eq_sum f l 0, zero_add]

/-- Closed form of the entities branch of `aggregate_entities`. -/
theorem aggregate_entities_cons (item : RankedItem) (e0 : MetricFields)
    (rest : List MetricFields) (hent : item.entities = e0 :: rest) :
    aggregate_entities item =
      { downloads := pyRound ((item.entities.map entAbs).sum / 7)
        prev_downloads := pyRound ((item.entities.map entPrev).sum / 7)
        delta := pyRound ((item.entities.map entDelta).sum / 7)
        pct_change :=
          some (if 0 < (item.entities.map entPrev).sum
                then (item.entities.map entDelta).sum / (item.entities.map entPrev).sum
                else orZero (entTransformed e0)) } := by
  simp only [aggregate_entities, hent, foldl_qAdd_map_sum, qDiv_eq]

/-- C1: with at least one entity fragment, the aggregated percent
change is `totalDelta / totalPreviousValue` from the un-normalized
summed totals whenever the summed previous value is positive, and
otherwise the first fragment's pre-computed transformed-delta value,
with `0` substituted when that fragment carries none. -/
theorem c1_pct_change_from_totals (item : RankedItem) (h : item.entities ≠ []) :
    (aggregate_entities item).pct_change =
      some (if 0 < (item.entities.map entPrev).sum
            then (item.entities.map entDelta).sum / (item.entities.map entPrev).sum
            else orZero (entTransformed item.entities.headI)) ∧
    (¬ 0 < (item.entities.map entPrev).sum →
      entTransformed item.entities.headI = none →
      (aggregate_entities item).pct_change = some 0) := by
  obtain ⟨e0, rest, hent⟩ := List.exists_cons_of_ne_nil h
  have hagg := aggregate_entities_cons item e0 rest hent
  have hhead : item.entities.headI = e0 := by rw [hent]; rfl
  constructor
  · rw [hagg, hhead]
  · intro hnp hnone
    rw [hhead] at hnone
    rw [hagg]
    simp only [if_neg hnp, hnone, orZero]

theorem c1_witness :
    ((aggregate_entities c1Item).pct_change =
      some (if 0 < (c1Item.entities.map entPrev).sum
            then (c1Item.entities.map entDelta).sum / (c1Item.entities.map entPrev).sum
            else orZero (entTransformed c1Item.entities.headI)) ∧
     (¬ 0 < (c1Item.entities.map entPrev).sum →
       entTransformed c1Item.entities.headI = none →
       (aggregate_entities c1Item).pct_change = some 0)) ∧
    (aggregate_entities c1Item).pct_change = some (Rat.divInt 1 10) := by
  exact ⟨c1_pct_change_from_totals c1Item (by decide), by decide⟩

/-- C7: with at least one entity fragment, the three download outputs
are the summed totals divided by the 7-day window length and rounded to
the nearest integer (no integer is closer to the exact quotient). -/
theorem c7_daily_average (item : RankedItem) (h : item.entities ≠ []) :
    ((aggregate_entities item).downloads = pyRound ((item.entities.map entAbs).sum / 7) ∧
     (aggregate_entities item).prev_downloads = pyRound ((item.entities.map entPrev).sum / 7) ∧
     (aggregate_entities item).delta = pyRound ((item.entities.map entDelta).sum / 7)) ∧
    ((∀ n : ℤ,
        |(item.entities.map entAbs).sum / 7 - ((aggregate_entities item).downloads : ℚ)| ≤
          |(item.entities.map entAbs).sum / 7 - (n : ℚ)|) ∧
     (∀ n : ℤ,
        |(item.entities.map entPrev).sum / 7 - ((aggregate_entities item).prev_downloads : ℚ)| ≤
          |(item.entities.map entPrev).sum / 7 - (n : ℚ)|) ∧
     (∀ n : ℤ,
        |(item.entities.map entDelta).sum / 7 - ((aggregate_entities item).delta : ℚ)| ≤
          |(item.entities.map entDelta).sum / 7 - (n : ℚ)|)) := by
  obtain ⟨e0, rest, hent⟩ := List.exists_cons_of_ne_nil h
  have hagg := aggregate_entities_cons item e0 rest hent
  have hd : (aggregate_entities item).downloads = pyRound ((item.entities.map entAbs).sum / 7) := by
    rw [hagg]
  have hp : (aggregate_entities item).prev_downloads =
      pyRound ((item.entities.map entPrev).sum / 7) := by
    rw [hagg]
  have hdel : (aggregate_entities item).delta = pyRound ((item.entities.map entDelta).sum / 7) := by
    rw [hagg]
  refine ⟨⟨hd, hp, hdel⟩, ?_, ?_, ?_⟩
  · intro n; rw [hd]; exact pyRound_nearest _ n
  · intro n; rw [hp]; exact pyRound_nearest _ n
  · intro n; rw [hdel]; exact pyRound_nearest _ n

theorem c7_witness :
    ((aggregate_entities c7Item).downloads = pyRound ((c7Item.entities.map entAbs).sum / 7) ∧
     (aggregate_entities c7Item).prev_downloads = pyRound ((c7Item.entities.map entPrev).sum / 7) ∧
     (aggregate_entities c7Item).delta = pyRound ((c7Item.entities.map entDelta).sum / 7)) ∧
    aggregate_entities c7Item =
      { downloads := 30, prev_downloads := 30, delta := 0, pct_change := some 0 } := by
  exact ⟨(c7_daily_average c7Item (by decide)).1, by decide⟩

/-- C5 counterexample: an item with no entity fragments does NOT
aggregate like the one-fragment item carrying the same values — the
percent-change rule is not applied to the implicit fragment; the
pre-computed transformed delta (1/2) is returned instead of the ratio
70 / 700 = 1/10. -/
theorem c5_counterexample :
    aggregate_entities { app_id := "a", entities := [], fields := c5Fields } ≠
      aggregate_entities { app_id := "a", entities := [c5Fields], fields := c5Fields } ∧
    (aggregate_entities { app_id := "a", entities := [], fields := c5Fields }).pct_change =
      some (Rat.divInt 1 2) ∧
    (aggregate_entities { app_id := "a", entities := [c5Fields], fields := c5Fields }).pct_change =
      some (Rat.divInt 1 10) := by
  exact ⟨by decide, by decide, by decide⟩

/-- C5 amended: an item with no entity fragments aggregates its
top-level absolute/comparison/delta fields exactly like a one-fragment
item carrying the same values, but its percent change is the raw
pre-computed transformed-delta field (Python
`item.get("units_transformed_delta", item.get("transformed_delta", 0))`,
`0` when both keys are absent), not the percent-change rule. -/
theorem c5_amended_implicit_fragment (id : String) (m : MetricFields) :
    (aggregate_entities { app_id := id, entities := [], fields := m }).downloads =
      (aggregate_entities { app_id := id, entities := [m], fields := m }).downloads ∧
    (aggregate_entities { app_id := id, entities := [], fields := m }).prev_downloads =
      (aggregate_entities { app_id := id, entities := [m], fields := m }).prev_downloads ∧
    (aggregate_entities { app_id := id, entities := [], fields := m }).delta =
      (aggregate_entities { app_id := id, entities := [m], fields := m }).delta ∧
    (aggregate_entities { app_id := id, entities := [], fields := m }).pct_change =
      entTransformed m := by
  have hq : ∀ x : ℚ, qAdd 0 x = x := by
    intro x; rw [qAdd_eq, zero_add]
  refine ⟨?_, ?_, ?_, ?_⟩ <;>
    simp only [aggregate_entities, List.foldl_cons, List.foldl_nil, hq]

/-- C9: when an item has no entities array and its
`units_transformed_delta` key (or, failing that, `transformed_delta`)
is present with a `null` value, `aggregate_entities` returns that null
as `pct_change` — unlike the absolute, comparison and delta fields of
the same branch, which coerce null to 0 — and the percentage scaling
`round(pct_change * 100, 2)` of row construction is undefined there. -/
theorem c9_null_transformed (item : RankedItem) (ds : RunDates) (rank : ℕ)
    (id : String) (info : AppMetadata)
    (h0 : item.entities = [])
    (h1 : item.fields.units_transformed_delta = JField.null ∨
          (item.fields.units_transformed_delta = JField.absent ∧
           item.fields.transformed_delta = JField.null)) :
    (aggregate_entities item).pct_change = none ∧
    pctScale (aggregate_entities item).pct_change = none ∧
    (build_row ds rank id info (aggregate_entities item)).download_pct_change = none ∧
    (item.fields.units_absolute = JField.null → (aggregate_entities item).downloads = 0) ∧
    (item.fields.comparison_units_value = JField.null →
      (aggregate_entities item).prev_downloads = 0) ∧
    (item.fields.units_delta = JField.null → (aggregate_entities item).delta = 0) := by
  have hpct : (aggregate_entities item).pct_change = none := by
    rcases h1 with hn | ⟨ha, hb⟩
    · simp only [aggregate_entities, h0, entTransformed, hn, jfGet2]
    · simp only [aggregate_entities, h0, entTransformed, ha, hb, jfGet2]
  refine ⟨hpct, by simp [pctScale, hpct], by simp [build_row, pctScale, hpct], ?_, ?_, ?_⟩
  · intro hA
    simp only [aggregate_entities, h0, entAbs, hA, jfGet2, orZero]
    decide
  · intro hC
    simp only [aggregate_entities, h0, entPrev, hC, jfGet1, orZero]
    decide
  · intro hD
    simp only [aggregate_entities, h0, entDelta, hD, jfGet2, orZero]
    decide

theorem c9_witness :
    (aggregate_entities c9Item).pct_change = none ∧
    (build_row c9Dates 1 "a" sentinelInfo (aggregate_entities c9Item)).download_pct_change = none ∧
    aggregate_entities c9Item =
      { downloads := 0, prev_downloads := 0, delta := 0, pct_change := none } := by
  have h := c9_null_transformed c9Item c9Dates 1 "a" sentinelInfo (by decide) (Or.inl (by decide))
  exact ⟨h.1, h.2.2.1, by decide⟩

theorem lookup_app_preserves (resolve : String → AppMetadata)
    (c : List (String × AppMetadata)) (id x : String) (m : AppMetadata)
    (h : assocFind c x = some m) :
    assocFind (lookup_app resolve c id).2.1 x = some m := by
  unfold lookup_app
  cases hc : assocFind c id with
  | some r => simpa using h
  | none =>
    by_cases hix : id = x
    · subst hix; rw [h] at hc; cases hc
    · simpa [assocFind, hix] using h

theorem lookup_app_result_cached (resolve : String → AppMetadata)
    (c : List (String × AppMetadata)) (id : String) :
    assocFind (lookup_app resolve c id).2.1 id = some (lookup_app resolve c id).1 := by
  unfold lookup_app
  cases hc : assocFind c id with
  | some r => simpa using hc
  | none => simp [assocFind]

theorem runLookups_preserves (resolve : String → AppMetadata) :
    ∀ (ids : List String) (c : List (String × AppMetadata)) (x : String) (m : AppMetadata),
      assocFind c x = some m → assocFind (runLookups resolve c ids).cache x = some m := by
  intro ids
  induction ids with
  | nil => intro c x m h; exact h
  | cons id rest ih =>
    intro c x m h
    exact ih _ x m (lookup_app_preserves resolve c id x m h)

theorem runLookups_results_cached (resolve : String → AppMetadata) :
    ∀ (ids : List String) (c : List (String × AppMetadata)) (p : String × AppMetadata),
      p ∈ (runLookups resolve c ids).results →
      assocFind (runLookups resolve c ids).cache p.1 = some p.2 := by
  intro ids
  induction ids with
  | nil => intro c p hp; cases hp
  | cons id rest ih =>
    intro c p hp
    simp only [runLookups, List.mem_cons] at hp
    rcases hp with hp | hp
    · subst hp
      exact runLookups_preserves resolve rest _ id _ (lookup_app_result_cached resolve c id)
    · exact ih _ p hp

theorem runLookups_trace_count (resolve : String → AppMetadata) :
    ∀ (ids : List String) (c : List (String × AppMetadata)) (x : String),
      ((runLookups resolve c ids).trace.count x ≤ 1) ∧
      ((assocFind c x).isSome → (runLookups resolve c ids).trace.count x = 0) := by
  intro ids
  induction ids with
  | nil => intro c x; simp [runLookups]
  | cons id rest ih =>
    intro c x
    cases hc : assocFind c id with
    | some r =>
      have htr : (runLookups resolve c (id :: rest)).trace = (runLookups resolve c rest).trace := by
        simp [runLookups, lookup_app, hc]
      rw [htr]
      exact ih c x
    | none =>
      have htr : (runLookups resolve c (id :: rest)).trace =
          id :: (runLookups resolve ((id, resolve id) :: c) rest).trace := by
        simp [runLookups, lookup_app, hc]
      rw [htr]
      by_cases hix : x = id
      · subst hix
        have hcached : (assocFind ((x, resolve x) :: c) x).isSome := by
          simp [assocFind]
        have h0 := (ih ((x, resolve x) :: c) x).2 hcached
        constructor
        · simp [List.count_cons, h0]
        · intro hs
          rw [hc] at hs
          cases hs
      · have hpre : assocFind ((id, resolve id) :: c) x = assocFind c x := by
          simp [assocFind, Ne.symm hix]
        constructor
        · have := (ih ((id, resolve id) :: c) x).1
          simpa [List.count_cons, hix] using this
        · intro hs
          have := (ih ((id, resolve id) :: c) x).2 (by rw [hpre]; exact hs)
          simpa [List.count_cons, hix] using this

/-- C2: under the sequential-schedule semantics of the shared cache,
(1) a run of lookups performs at most one underlying network resolution
per identifier — and none at all for identifiers already cached;
(2) any two results returned for the same identifier within one run are
field-for-field identical; (3) the trace of `parallel_lookup_apps`
resolves each identifier at most once. -/
theorem c2_cache_at_most_once :
    (∀ (resolve : String → AppMetadata) (c : List (String × AppMetadata))
        (ids : List String) (x : String),
      ((runLookups resolve c ids).trace.count x ≤ 1) ∧
      ((assocFind c x).isSome → (runLookups resolve c ids).trace.count x = 0)) ∧
    (∀ (resolve : String → AppMetadata) (c : List (String × AppMetadata))
        (ids : List String) (p q : String × AppMetadata),
      p ∈ (runLookups resolve c ids).results → q ∈ (runLookups resolve c ids).results →
      p.1 = q.1 → p.2 = q.2) ∧
    (∀ (resolve : String → AppMetadata) (c : List (String × AppMetadata))
        (ids : List String) (x : String),
      (parallel_lookup_apps resolve c ids).trace.count x ≤ 1) := by
  refine ⟨fun resolve c ids x => runLookups_trace_count resolve ids c x, ?_, ?_⟩
  · intro resolve c ids p q hp hq hpq
    have h1 := runLookups_results_cached resolve ids c p hp
    have h2 := runLookups_results_cached resolve ids c q hq
    rw [hpq] at h1
    exact Option.some_injective _ (h1.symm.trans h2)
  · intro resolve c ids x
    exact (runLookups_trace_count resolve _ c x).1

theorem c2_witness :
    (runLookups resolveNamed [] ["A", "B", "A"]).trace = ["A", "B"] ∧
    (runLookups resolveNamed [] ["A", "B", "A"]).trace.count "A" ≤ 1 ∧
    (parallel_lookup_apps resolveNamed [] ["A", "B", "A"]).trace.count "A" ≤ 1 ∧
    ((runLookups resolveNamed [] ["A", "B", "A"]).results.get ⟨0, by decide⟩).2 =
      ((runLookups resolveNamed [] ["A", "B", "A"]).results.get ⟨2, by decide⟩).2 := by
  refine ⟨by decide, (c2_cache_at_most_once.1 resolveNamed [] ["A", "B", "A"] "A").1,
    c2_cache_at_most_once.2.2 resolveNamed [] ["A", "B", "A"] "A", ?_⟩
  exact c2_cache_at_most_once.2.1 resolveNamed [] ["A", "B", "A"] _ _
    (List.get_mem _ _ _) (List.get_mem _ _ _) (by decide)

theorem buildRowsAux_get (ds : RunDates) (infos : List (String × AppMetadata)) :
    ∀ (data : List RankedItem) (r k : ℕ) (item : RankedItem),
      data[k]? = some item →
      (buildRowsAux ds infos r data)[k]? =
        some (build_row ds (r + k) item.app_id
          ((assocFind infos item.app_id).getD sentinelInfo) (aggregate_entities item)) := by
  intro data
  induction data with
  | nil => intro r k item h; cases h
  | cons x xs ih =>
    intro r k item h
    cases k with
    | zero =>
      simp only [List.getElem?_cons_zero, Option.some_inj] at h
      subst h
      simp [buildRowsAux]
    | succ k =>
      simp only [List.getElem?_cons_succ] at h
      have := ih (r + 1) k item h
      simpa [buildRowsAux, Nat.add_assoc, Nat.add_comm 1 k] using this

theorem buildRowsAux_length (ds : RunDates) (infos : List (String × AppMetadata)) :
    ∀ (r : ℕ) (data : List RankedItem),
      (buildRowsAux ds infos r data).length = data.length := by
  intro r data
  induction data generalizing r with
  | nil => rfl
  | cons x xs ih => simp [buildRowsAux, ih]

/-- C3: the assembler yields exactly one row per input item, in input
order; the row at 0-based position `k` carries rank `k + 1` and the
identifier of the `k`-th ranked item, for any metadata mapping
whatsoever (hence independent of lookup completion order); and an
identifier absent from the mapping yields the sentinel record's fields
rather than an omitted row. -/
theorem c3_row_assembly (ds : RunDates) (data : List RankedItem)
    (infos : List (String × AppMetadata)) :
    (build_rows_parallel ds data infos).length = data.length ∧
    (∀ (k : ℕ) (item : RankedItem), data[k]? = some item →
      (build_rows_parallel ds data infos)[k]? =
        some (build_row ds (k + 1) item.app_id
          ((assocFind infos item.app_id).getD sentinelInfo) (aggregate_entities item)) ∧
      (∀ row : Row, (build_rows_parallel ds data infos)[k]? = some row →
        row.rank = k + 1 ∧ row.app_id = item.app_id ∧
        (assocFind infos item.app_id = none →
          row.app_name = "Unknown" ∧ row.publisher = "Unknown" ∧ row.icon_url = "" ∧
          row.app_description = "" ∧ row.ios_store_url = "" ∧
          row.android_store_url = ""))) := by
  constructor
  · exact buildRowsAux_length ds infos 1 data
  · intro k item h
    have hget := buildRowsAux_get ds infos data 1 k item h
    rw [Nat.add_comm 1 k] at hget
    refine ⟨hget, ?_⟩
    intro row hrow
    rw [build_rows_parallel] at hrow
    rw [hget] at hrow
    have hr : row = build_row ds (k + 1) item.app_id
        ((assocFind infos item.app_id).getD sentinelInfo) (aggregate_entities item) :=
      (Option.some_injective _ hrow).symm
    subst hr
    refine ⟨rfl, rfl, ?_⟩
    intro hmiss
    rw [hmiss]
    exact ⟨rfl, rfl, rfl, rfl, rfl, rfl⟩

theorem c3_witness :
    (build_rows_parallel c9Dates c3Data c3Infos).length = c3Data.length ∧
    (∀ row : Row, (build_rows_parallel c9Dates c3Data c3Infos)[1]? = some row →
      row.rank = 2 ∧ row.app_id = "B" ∧
      (assocFind c3Infos "B" = none →
        row.app_name = "Unknown" ∧ row.publisher = "Unknown" ∧ row.icon_url = "" ∧
        row.app_description = "" ∧ row.ios_store_url = "" ∧
        row.android_store_url = "")) := by
  refine ⟨(c3_row_assembly c9Dates c3Data c3Infos).1, ?_⟩
  have h := ((c3_row_assembly c9Dates c3Data c3Infos).2 1
    { app_id := "B", entities := [], fields := blankFields } (by decide)).2
  simpa using h

/-- C4 counterexample: a non-retryable 4xx status (404 on every
attempt) does NOT make `st_get` fail immediately — it runs all 5
attempts with four 3-second backoff sleeps and then returns `None`,
carrying neither the status nor a body snippet. -/
theorem c4_counterexample :
    (st_get "k" [] resp404).attempts = 5 ∧
    (st_get "k" [] resp404).sleeps = [3, 3, 3, 3] ∧
    (st_get "k" [] resp404).result = none := by
  exact ⟨by decide, by decide, by decide⟩

/-- C4 amended: only `call_gemini` fails immediately on a non-retryable
status (anything other than 200/429/500/502/503/504): one attempt, no
sleep, the status and a 200-character body snippet logged, `None`
returned.  `st_get`, by contrast, retries every non-200/non-429 status
with 3-second sleeps up to its 5-attempt ceiling and then returns
`None` without status information. -/
theorem c4_amended_retry_split :
    (∀ (responses : ℕ → GemOutcome) (status : ℕ) (body : String) (t : Option String),
      responses 0 = GemOutcome.resp status body t →
      status ≠ 200 → status ≠ 429 → status ≠ 500 → status ≠ 502 → status ≠ 503 →
      status ≠ 504 →
      call_gemini true responses =
        { result := none, attempts := 1, sleeps := []
          errorLog := [(status, body.take 200)] }) ∧
    (∀ (apiKey : String) (params : List (String × String)) (responses : ℕ → HttpOutcome)
        (status : ℕ) (body : String),
      (∀ n, responses n = HttpOutcome.resp status body) →
      status ≠ 200 → status ≠ 429 →
      (st_get apiKey params responses).attempts = 5 ∧
      (st_get apiKey params responses).sleeps = [3, 3, 3, 3] ∧
      (st_get apiKey params responses).result = none) := by
  constructor
  · intro responses status body t h0 h200 h429 h500 h502 h503 h504
    simp [call_gemini, call_geminiAux, h0, h200, h429, h500, h502, h503, h504]
  · intro apiKey params responses status body hall h200 h429
    have haux : st_getAux responses 5 0 = (none, 5, [3, 3, 3, 3]) := by
      simp [st_getAux, hall 0, hall 1, hall 2, hall 3, hall 4, h200, h429]
    refine ⟨?_, ?_, ?_⟩ <;> simp [st_get, haux]

theorem c4_witness :
    call_gemini true gem404 =
      { result := none, attempts := 1, sleeps := []
        errorLog := [(404, String.take "bad request" 200)] } ∧
    (st_get "k" [("x", "1")] resp404).attempts = 5 ∧
    (st_get "k" [("x", "1")] resp404).sleeps = [3, 3, 3, 3] ∧
    (st_get "k" [("x", "1")] resp404).result = none := by
  refine ⟨c4_amended_retry_split.1 gem404 404 "bad request" none rfl (by decide) (by decide)
    (by decide) (by decide) (by decide) (by decide), ?_⟩
  exact c4_amended_retry_split.2 "k" [("x", "1")] resp404 404 "Not Found" (fun n => rfl)
    (by decide) (by decide)

theorem assocFind_append {α : Type} :
    ∀ (ps qs : List (String × α)) (k : String),
      assocFind (ps ++ qs) k =
        (match assocFind ps k with
         | some v => some v
         | none => assocFind qs k) := by
  intro ps qs k
  induction ps with
  | nil => rfl
  | cons p rest ih =>
    by_cases hp : p.1 = k
    · simp [assocFind, hp]
    · simp [assocFind, hp, ih]

theorem assocFind_map_set (ps : List (String × String)) (k v : String) :
    assocFind (ps.map (fun p => if p.1 = k then (k, v) else p)) k =
      (assocFind ps k).map (fun _ => v) := by
  induction ps with
  | nil => rfl
  | cons p rest ih =>
    by_cases hp : p.1 = k
    · simp [assocFind, hp]
    · simp [assocFind, hp, ih]

theorem assocFind_map_set_other (ps : List (String × String)) (k v k2 : String)
    (hne : k2 ≠ k) :
    assocFind (ps.map (fun p => if p.1 = k then (k, v) else p)) k2 = assocFind ps k2 := by
  induction ps with
  | nil => rfl
  | cons p rest ih =>
    by_cases hp : p.1 = k
    · have hp2 : p.1 ≠ k2 := by rw [hp]; exact Ne.symm hne
      simp [assocFind, hp, Ne.symm hne, hp2, ih]
    · simp [assocFind, hp, ih]

theorem dictSet_find_self (ps : List (String × String)) (k v : String) :
    assocFind (dictSet ps k v) k = some v := by
  unfold dictSet
  split
  · rename_i h
    rw [assocFind_map_set]
    obtain ⟨w, hw⟩ := Option.isSome_iff_exists.mp h
    rw [hw]
    rfl
  · rename_i h
    have hn : assocFind ps k = none := Option.not_isSome_iff_eq_none.mp h
    rw [assocFind_append, hn]
    simp [assocFind]

theorem dictSet_find_other (ps : List (String × String)) (k v k2 : String)
    (hne : k2 ≠ k) : assocFind (dictSet ps k v) k2 = assocFind ps k2 := by
  unfold dictSet
  split
  · exact assocFind_map_set_other ps k v k2 hne
  · rw [assocFind_append]
    cases hf : assocFind ps k2 with
    | some w => rfl
    | none => simp [assocFind, Ne.symm hne]

/-- C10: `st_get` writes the API auth token into the caller-supplied
`params` dict under `auth_token` before the first attempt; the write
remains visible to the caller after the call returns, and no other key
of `params` is changed. -/
theorem c10_params_mutated (apiKey : String) (params : List (String × String))
    (responses : ℕ → HttpOutcome) :
    assocFind (st_get apiKey params responses).params "auth_token" = some apiKey ∧
    (∀ k, k ≠ "auth_token" →
      assocFind (st_get apiKey params responses).params k = assocFind params k) ∧
    (st_get apiKey params responses).params = dictSet params "auth_token" apiKey := by
  refine ⟨dictSet_find_self params "auth_token" apiKey, ?_, rfl⟩
  intro k hk
  exact dictSet_find_other params "auth_token" apiKey k hk

theorem c10_witness :
    assocFind (st_get "K" [("limit", "50")] resp404).params "auth_token" = some "K" ∧
    assocFind (st_get "K" [("limit", "50")] resp404).params "limit" = some "50" := by
  refine ⟨(c10_params_mutated "K" [("limit", "50")] resp404).1, ?_⟩
  rw [(c10_params_mutated "K" [("limit", "50")] resp404).2.1 "limit" (by decide)]
  decide

theorem chunksAux_zero {α : Type} (l : List α) : chunksAux 0 l = [] := by
  cases l <;> rfl

theorem chunksAux_join {α : Type} :
    ∀ (f : ℕ) (l : List α), l.length ≤ f → (chunksAux f l).flatten = l := by
  intro f
  induction f with
  | zero =>
    intro l h
    have hl : l = [] := List.eq_nil_of_length_eq_zero (Nat.le_zero.mp h)
    subst hl
    rfl
  | succ f ih =>
    intro l h
    cases l with
    | nil => rfl
    | cons x xs =>
      simp only [chunksAux, List.flatten_cons]
      rw [ih ((x :: xs).drop 50) ?_]
      · exact List.take_append_drop 50 (x :: xs)
      · simp only [List.length_drop]
        omega

theorem chunksAux_mem {α : Type} :
    ∀ (f : ℕ) (l : List α) (b : List α), b ∈ chunksAux f l → b ≠ [] ∧ b.length ≤ 50 := by
  intro f
  induction f with
  | zero =>
    intro l b hb
    rw [chunksAux_zero] at hb
    cases hb
  | succ f ih =>
    intro l b hb
    cases l with
    | nil => cases hb
    | cons x xs =>
      simp only [chunksAux, List.mem_cons] at hb
      rcases hb with hb | hb
      · subst hb
        constructor
        · simp [List.take]
        · rw [List.length_take]
          exact min_le_left 50 _
      · exact ih _ b hb

theorem chunksAux_ne_nil {α : Type} :
    ∀ (f : ℕ) (l : List α), chunksAux f l ≠ [] → l ≠ [] := by
  intro f l
  cases f with
  | zero => intro h; exact absurd (chunksAux_zero l) h
  | succ f =>
    cases l with
    | nil => intro h; exact absurd rfl h
    | cons x xs => intro h hc; cases hc

theorem chunksAux_dropLast_full {α : Type} :
    ∀ (f : ℕ) (l : List α), l.length ≤ f →
      ∀ b, b ∈ (chunksAux f l).dropLast → b.length = 50 := by
  intro f
  induction f with
  | zero =>
    intro l h b hb
    rw [chunksAux_zero] at hb
    cases hb
  | succ f ih =>
    intro l h b hb
    cases l with
    | nil => cases hb
    | cons x xs =>
      simp only [chunksAux] at hb
      cases hrest : chunksAux f ((x :: xs).drop 50) with
      | nil => rw [hrest] at hb; cases hb
      | cons c cs =>
        rw [hrest] at hb
        have hdrop : (x :: xs).drop 50 ≠ [] := by
          apply chunksAux_ne_nil f
          rw [hrest]
          exact List.cons_ne_nil c cs
        have hlong : 50 < (x :: xs).length := by
          by_contra hc
          exact hdrop (List.drop_eq_nil_of_le (not_lt.mp hc))
        simp only [List.dropLast_cons₂, List.mem_cons] at hb
        rcases hb with hb | hb
        · subst hb
          rw [List.length_take]
          omega
        · rw [← hrest] at hb
          apply ih ((x :: xs).drop 50) ?_ b hb
          simp only [List.length_drop]
          omega

theorem runInserts_trace {α : Type} (batchOk : List α → Bool) (rowOk : α → Bool) :
    ∀ (bs : List (List α)),
      (runInserts batchOk rowOk bs).2.2 =
        bs.flatMap (fun b =>
          SinkReq.insertBatch b ::
            (if batchOk b then [] else b.map SinkReq.insertRow)) := by
  intro bs
  induction bs with
  | nil => rfl
  | cons b rest ih =>
    by_cases hb : batchOk b
    · simp [runInserts, hb, ih]
    · simp [runInserts, hb, ih]

theorem runInserts_allOk {α : Type} (rowOk : α → Bool) :
    ∀ (bs : List (List α)),
      (runInserts (fun _ => true) rowOk bs).1 = bs.flatten ∧
      (runInserts (fun _ => true) rowOk bs).2.1 = bs.flatten.length := by
  intro bs
  induction bs with
  | nil => exact ⟨rfl, rfl⟩
  | cons b rest ih =>
    constructor
    · simp [runInserts, ih.1]
    · simp [runInserts, ih.1, ih.2, List.length_append]

theorem runInserts_allFail {α : Type} :
    ∀ (bs : List (List α)), (runInserts (fun _ => false) (fun _ => false) bs).1 = [] := by
  intro bs
  induction bs with
  | nil => rfl
  | cons b rest ih => simp [runInserts, ih]

/-- C8: for a non-empty row list, `upsert_rows` issues the delete-all
request first and then the batch inserts in order; the batches
partition the rows in order with size at most 50, every batch but the
last having exactly 50 rows; a failed batch is immediately retried
row-by-row; when everything succeeds the table holds exactly the new
rows and `total_inserted` equals the row count; and there is no
all-or-nothing guarantee across the delete and the inserts — when the
delete succeeds and every insert fails, the table ends empty. -/
theorem c8_full_replace {α : Type} (delOk : Bool) (batchOk : List α → Bool)
    (rowOk : α → Bool) (table rows : List α) (h : rows ≠ []) :
    ((upsert_rows delOk batchOk rowOk table rows).2.2 =
      SinkReq.deleteAll ::
        (chunks50 rows).flatMap (fun b =>
          SinkReq.insertBatch b ::
            (if batchOk b then [] else b.map SinkReq.insertRow))) ∧
    (chunks50 rows).flatten = rows ∧
    (∀ b, b ∈ chunks50 rows → b ≠ [] ∧ b.length ≤ 50) ∧
    (∀ b, b ∈ (chunks50 rows).dropLast → b.length = 50) ∧
    ((upsert_rows true (fun _ => true) rowOk table rows).1 = rows ∧
     (upsert_rows true (fun _ => true) rowOk table rows).2.1 = rows.length) ∧
    (upsert_rows true (fun _ => false) (fun _ => false) table rows).1 = [] := by
  have hne : rows.isEmpty = false := by
    cases rows with
    | nil => exact absurd rfl h
    | cons x xs => rfl
  have hjoin : (chunks50 rows).flatten = rows := chunksAux_join rows.length rows (le_refl _)
  refine ⟨?_, hjoin, ?_, ?_, ⟨?_, ?_⟩, ?_⟩
  · simp only [upsert_rows, hne, Bool.false_eq_true, if_false]
    rw [runInserts_trace]
  · intro b hb; exact chunksAux_mem rows.length rows b hb
  · intro b hb; exact chunksAux_dropLast_full rows.length rows (le_refl _) b hb
  · simp only [upsert_rows, hne, Bool.false_eq_true, if_false, if_true]
    rw [(runInserts_allOk rowOk (chunks50 rows)).1, hjoin]
    rfl
  · simp only [upsert_rows, hne, Bool.false_eq_true, if_false, if_true]
    rw [(runInserts_allOk rowOk (chunks50 rows)).2, hjoin]
  · simp only [upsert_rows, hne, Bool.false_eq_true, if_false, if_true]
    rw [runInserts_allFail (chunks50 rows)]
    rfl

theorem c8_witness :
    (chunks50 (List.range 60)).flatten = List.range 60 ∧
    (upsert_rows true (fun _ => true) (fun _ => true) ([] : List ℕ) (List.range 60)).1 =
      List.range 60 ∧
    (upsert_rows true (fun _ => true) (fun _ => true) ([] : List ℕ) (List.range 60)).2.1 = 60 ∧
    (upsert_rows true (fun _ => false) (fun _ => false) ([7] : List ℕ) (List.range 60)).1 = [] ∧
    (chunks50 (List.range 60)).map List.length = [50, 10] := by
  have h1 := c8_full_replace true (fun _ => true) (fun _ => true) ([] : List ℕ)
    (List.range 60) (by decide)
  have h2 := c8_full_replace true (fun _ => false) (fun _ => false) ([7] : List ℕ)
    (List.range 60) (by decide)
  refine ⟨h1.2.1, h1.2.2.2.2.1.1, ?_, h2.2.2.2.2.2, by decide⟩
  rw [h1.2.2.2.2.1.2]
  decide

theorem setDescAt_length :
    ∀ (rs : List Row) (n : ℕ) (s : String), (setDescAt rs n s).length = rs.length := by
  intro rs
  induction rs with
  | nil => intro n s; rfl
  | cons r rest ih =>
    intro n s
    cases n with
    | zero => rfl
    | succ n => simp [setDescAt, ih]

theorem setDescAt_get_ne :
    ∀ (rs : List Row) (n j : ℕ) (s : String), j ≠ n → (setDescAt rs n s)[j]? = rs[j]? := by
  intro rs
  induction rs with
  | nil => intro n j s h; rfl
  | cons r rest ih =>
    intro n j s h
    cases n with
    | zero =>
      cases j with
      | zero => exact absurd rfl h
      | succ j => simp [setDescAt]
    | succ n =>
      cases j with
      | zero => simp [setDescAt]
      | succ j =>
        simp only [setDescAt, List.getElem?_cons_succ]
        exact ih n j s (fun hc => h (by rw [hc]))

theorem setDescAt_get_eq :
    ∀ (rs : List Row) (n : ℕ) (s : String) (row : Row), rs[n]? = some row →
      (setDescAt rs n s)[n]? = some { row with app_description := s } := by
  intro rs
  induction rs with
  | nil => intro n s row h; cases h
  | cons r rest ih =>
    intro n s row h
    cases n with
    | zero =>
      simp only [List.getElem?_cons_zero, Option.some_inj] at h
      subst h
      simp [setDescAt]
    | succ n =>
      simp only [List.getElem?_cons_succ] at h
      simp only [setDescAt, List.getElem?_cons_succ]
      exact ih n s row h

theorem applyOne_length (rs : List Row) (it : SItem) : (applyOne rs it).length = rs.length := by
  unfold applyOne
  split
  · exact setDescAt_length rs _ _
  · rfl

theorem applyItems_length :
    ∀ (items : List SItem) (rows : List Row), (applyItems rows items).length = rows.length := by
  intro items
  induction items with
  | nil => intro rows; rfl
  | cons it rest ih =>
    intro rows
    show (applyItems (applyOne rows it) rest).length = rows.length
    rw [ih, applyOne_length]

theorem applyOne_get_untouched (rs : List Row) (it : SItem) (k : ℕ)
    (h : ¬(it.index = (k : ℤ) + 1 ∧ it.summary ≠ "")) :
    (applyOne rs it)[k]? = rs[k]? := by
  unfold applyOne
  split
  · rename_i hc
    obtain ⟨h0, hlen, hs⟩ := hc
    have hne : it.index ≠ (k : ℤ) + 1 := fun hidx => h ⟨hidx, hs⟩
    apply setDescAt_get_ne
    intro hk
    apply hne
    have h2 : ((it.index - 1).toNat : ℤ) = it.index - 1 := Int.toNat_of_nonneg h0
    omega
  · rfl

theorem applyItems_get_untouched :
    ∀ (items : List SItem) (rows : List Row) (k : ℕ),
      (∀ it, it ∈ items → ¬(it.index = (k : ℤ) + 1 ∧ it.summary ≠ "")) →
      (applyItems rows items)[k]? = rows[k]? := by
  intro items
  induction items with
  | nil => intro rows k h; rfl
  | cons it rest ih =>
    intro rows k h
    show (applyItems (applyOne rows it) rest)[k]? = rows[k]?
    rw [ih (applyOne rows it) k (fun x hx => h x (List.mem_cons_of_mem it hx))]
    exact applyOne_get_untouched rows it k (h it (List.mem_cons_self it rest))

theorem applyOne_skip (rs : List Row) (it : SItem)
    (h : it.index < 1 ∨ (rs.length : ℤ) < it.index ∨ it.summary = "") :
    applyOne rs it = rs := by
  unfold applyOne
  split
  · rename_i hc
    obtain ⟨h0, hlen, hs⟩ := hc
    exfalso
    rcases h with h | h | h
    · omega
    · omega
    · exact hs h
  · rfl

theorem applyOne_get_hit (rows : List Row) (it : SItem) (k : ℕ) (row : Row)
    (hidx : it.index = (k : ℤ) + 1) (hs : it.summary ≠ "") (hk : rows[k]? = some row) :
    (applyOne rows it)[k]? = some { row with app_description := it.summary } ∧
    (∀ j2 : ℕ, j2 ≠ k → (applyOne rows it)[j2]? = rows[j2]?) := by
  have hklen : k < rows.length := by
    by_contra hc
    rw [List.getElem?_eq_none (not_lt.mp hc)] at hk
    cases hk
  have hcond : 0 ≤ it.index - 1 ∧ it.index - 1 < (rows.length : ℤ) ∧ it.summary ≠ "" := by
    refine ⟨by omega, by omega, hs⟩
  have htn : (it.index - 1).toNat = k := by omega
  constructor
  · rw [applyOne, if_pos hcond, htn]
    exact setDescAt_get_eq rows k it.summary row hk
  · intro j2 hj2
    rw [applyOne, if_pos hcond, htn]
    exact setDescAt_get_ne rows k j2 it.summary hj2

/-- C6: the summarizer's parse proceeds through the ordered fallback
chain — direct parse of the fence-stripped response, then extraction of
the first JSON-array-shaped substring, then extraction of individual
index/summary pairs — and the first stage yielding a (truthy)
non-empty result wins; if all stages fail, the rows come back with
every description unchanged.  Each applied summary with 1-based index
`i` and non-empty text rewrites only the description of row `i - 1`;
entries with an out-of-range index or empty text leave every row's
prior description intact, and the row count is always preserved. -/
theorem c6_summarizer_fallback :
    (∀ (rows : List Row) (res : String) (j : Json) (items : List SItem),
      rows ≠ [] → res ≠ "" →
      stage1Json res.data = some j → jtruthy j = true → summariesOfJson j = some items →
      batch_summarize_descriptions true rows (some res) = some (applyItems rows items)) ∧
    (∀ (rows : List Row) (res : String) (j : Json) (items : List SItem),
      rows ≠ [] → res ≠ "" →
      stage1Json res.data = none → stage2Json res.data = some j → jtruthy j = true →
      summariesOfJson j = some items →
      batch_summarize_descriptions true rows (some res) = some (applyItems rows items)) ∧
    (∀ (rows : List Row) (res : String),
      rows ≠ [] → res ≠ "" →
      jtruthy (summariesAfter12 res.data) = false → stage3Items res.data ≠ [] →
      batch_summarize_descriptions true rows (some res) =
        some (applyItems rows (stage3Items res.data))) ∧
    (∀ (rows : List Row) (res : String),
      rows ≠ [] → res ≠ "" →
      jtruthy (summariesAfter12 res.data) = false → stage3Items res.data = [] →
      batch_summarize_descriptions true rows (some res) = some rows) ∧
    (∀ (rows : List Row) (items : List SItem),
      (applyItems rows items).length = rows.length) ∧
    (∀ (rows : List Row) (items : List SItem) (k : ℕ),
      (∀ it, it ∈ items → ¬(it.index = (k : ℤ) + 1 ∧ it.summary ≠ "")) →
      (applyItems rows items)[k]? = rows[k]?) ∧
    (∀ (rows : List Row) (it : SItem),
      it.index < 1 ∨ (rows.length : ℤ) < it.index ∨ it.summary = "" →
      applyItems rows [it] = rows) ∧
    (∀ (rows : List Row) (it : SItem) (k : ℕ) (row : Row),
      it.index = (k : ℤ) + 1 → it.summary ≠ "" → rows[k]? = some row →
      (applyItems rows [it])[k]? = some { row with app_description := it.summary } ∧
      (∀ j2 : ℕ, j2 ≠ k → (applyItems rows [it])[j2]? = rows[j2]?)) := by
  have hnonempty : ∀ {α : Type} (l : List α), l ≠ [] → l.isEmpty = false := by
    intro α l h
    cases l with
    | nil => exact absurd rfl h
    | cons x xs => rfl
  refine ⟨?_, ?_, ?_, ?_, fun rows items => applyItems_length items rows,
    fun rows items k h => applyItems_get_untouched items rows k h,
    fun rows it h => applyOne_skip rows it h,
    fun rows it k row hidx hs hk => applyOne_get_hit rows it k row hidx hs hk⟩
  · intro rows res j items hrows hres h1 hj hitems
    simp [batch_summarize_descriptions, hnonempty rows hrows, hres, summariesAfter12,
      h1, hj, hitems]
  · intro rows res j items hrows hres h1 h2 hj hitems
    simp [batch_summarize_descriptions, hnonempty rows hrows, hres, summariesAfter12,
      h1, h2, hj, hitems]
  · intro rows res hrows hres hfalse hitems
    simp [batch_summarize_descriptions, hnonempty rows hrows, hres, hfalse,
      hnonempty (stage3Items res.data) hitems]
  · intro rows res hrows hres hfalse hitems
    simp [batch_summarize_descriptions, hnonempty rows hrows, hres, hfalse, hitems]

theorem c6_witness :
    batch_summarize_descriptions true c6Rows (some c6Fenced) =
      some (applyItems c6Rows [{ index := 1, summary := "S1." }]) ∧
    batch_summarize_descriptions true c6Rows (some c6Narrative) =
      some (applyItems c6Rows [{ index := 2, summary := "S2." }]) ∧
    batch_summarize_descriptions true c6Rows (some c6Malformed) =
      some (applyItems c6Rows [{ index := 1, summary := "S3." }]) ∧
    batch_summarize_descriptions true c6Rows (some c6Garbage) = some c6Rows ∧
    batch_summarize_descriptions true c6Rows (some c6Fenced) =
      some [sampleRow "S1.", sampleRow "old2"] ∧
    applyItems c6Rows [{ index := 9, summary := "X" }] = c6Rows ∧
    applyItems c6Rows [{ index := 1, summary := "" }] = c6Rows := by
  refine ⟨?_, ?_, ?_, ?_, by decide, ?_, ?_⟩
  · exact c6_summarizer_fallback.1 c6Rows c6Fenced c6FencedJson
      [{ index := 1, summary := "S1." }] (by decide) (by decide) (by rfl) (by rfl) (by rfl)
  · exact c6_summarizer_fallback.2.1 c6Rows c6Narrative c6NarrativeJson
      [{ index := 2, summary := "S2." }] (by decide) (by decide) (by rfl) (by rfl) (by rfl)
      (by rfl)
  · have h := c6_summarizer_fallback.2.2.1 c6Rows c6Malformed (by decide) (by decide)
      (by rfl) (by intro hc; cases hc)
    rw [show stage3Items c6Malformed.data = [({ index := 1, summary := "S3." } : SItem)]
      from by rfl] at h
    exact h
  · exact c6_summarizer_fallback.2.2.2.1 c6Rows c6Garbage (by decide) (by decide)
      (by rfl) (by rfl)
  · exact c6_summarizer_fallback.2.2.2.2.2.2.1 c6Rows { index := 9, summary := "X" }
      (by right; left; decide)
  · exact c6_summarizer_fallback.2.2.2.2.2.2.1 c6Rows { index := 1, summary := "" }
      (by right; right; rfl)
